import Mathlib

set_option linter.unusedVariables false

/-!
Verification of the aiseo2 multi-LLM query tool.

This file shallowly embeds the parts of the repository that the checked
properties are about:

* `src/run.py` — the provider adapters (`FixedLLMTester.test_openai`,
  `test_anthropic`, `test_perplexity`, `test_google`, `test_google_search`);
* `src/backend/app.py` — `init_services`, `submit_query` and
  `process_query_async` (the per-job orchestration loop);
* `src/analyzer.py` — `ResponseAnalyzer.analyze_with_ai`, the JSON repair
  path, `_extract_additional_sources` and `_get_fallback_analysis`.

External boundaries (vendor network calls, the Python `re` regex engine on
free text, uuid/clock/threads) are modelled as explicit oracle parameters;
everything the properties quantify over (control flow, result shapes, the
stored dictionaries, the JSON parse/repair pipeline, deduplication and
truncation) is translated from the source.  Python dictionaries are
association lists with insert-or-replace semantics; Python strings that are
sliced or scanned are `List Char`.
-/

namespace Aiseo

/-- Python `dict` assignment `m[k] = v`: replace the entry if the key is
present, otherwise append it (insertion order preserved). -/
def dictInsert {κ α : Type} [DecidableEq κ] (k : κ) (v : α) :
    List (κ × α) → List (κ × α)
  | [] => [(k, v)]
  | (k', v') :: rest =>
    if k' = k then (k, v) :: rest else (k', v') :: dictInsert k v rest

/-- Python `dict` lookup `m.get(k)`. -/
def dictGet {κ α : Type} [DecidableEq κ] (k : κ) : List (κ × α) → Option α
  | [] => none
  | (k', v) :: rest => if k' = k then some v else dictGet k rest

/-- Python `k in m` on a dict. -/
def dictHasKey {κ α : Type} [DecidableEq κ] (k : κ) (m : List (κ × α)) : Bool :=
  (dictGet k m).isSome

theorem dictGet_dictInsert_self {κ α : Type} [DecidableEq κ] (k : κ) (v : α) :
    ∀ m : List (κ × α), dictGet k (dictInsert k v m) = some v := by
  intro m
  induction m with
  | nil => simp [dictInsert, dictGet]
  | cons hd tl ih =>
    obtain ⟨k', v'⟩ := hd
    by_cases h : k' = k
    · simp [dictInsert, dictGet, h]
    · simp [dictInsert, dictGet, h, ih]

theorem dictGet_dictInsert_ne {κ α : Type} [DecidableEq κ] (k q : κ) (v : α)
    (hne : k ≠ q) : ∀ m : List (κ × α),
    dictGet q (dictInsert k v m) = dictGet q m := by
  intro m
  induction m with
  | nil => simp [dictInsert, dictGet, hne]
  | cons hd tl ih =>
    obtain ⟨k', v'⟩ := hd
    by_cases h : k' = k
    · subst h
      simp [dictInsert, dictGet, hne, ih]
    · simp [dictInsert, h]
      by_cases h2 : k' = q
      · simp [dictGet, h2]
      · simp [dictGet, h2, ih]

theorem dictInsert_keys {κ α : Type} [DecidableEq κ] (k : κ) (v : α) :
    ∀ m : List (κ × α),
      (dictInsert k v m).map Prod.fst =
        if k ∈ m.map Prod.fst then m.map Prod.fst else m.map Prod.fst ++ [k] := by
  intro m
  induction m with
  | nil => simp [dictInsert]
  | cons hd tl ih =>
    obtain ⟨k', v'⟩ := hd
    by_cases h : k' = k
    · subst h
      simp [dictInsert]
    · simp only [dictInsert, if_neg h, List.map_cons]
      rw [ih]
      by_cases h2 : k ∈ tl.map Prod.fst
      · simp [h2, Ne.symm h]
      · simp [h2, Ne.symm h]

theorem dictInsert_keys_nodup {κ α : Type} [DecidableEq κ] (k : κ) (v : α)
    (m : List (κ × α)) (h : (m.map Prod.fst).Nodup) :
    ((dictInsert k v m).map Prod.fst).Nodup := by
  rw [dictInsert_keys]
  by_cases hk : k ∈ m.map Prod.fst
  · simpa [hk]
  · have hd : (m.map Prod.fst).Disjoint [k] := by
      intro a ha hka
      simp only [List.mem_singleton] at hka
      exact hk (hka ▸ ha)
    simpa [hk] using List.Nodup.append h (List.nodup_singleton k) hd

theorem dictGet_isSome_iff_mem_keys {κ α : Type} [DecidableEq κ] (k : κ) :
    ∀ m : List (κ × α), (dictGet k m).isSome = true ↔ k ∈ m.map Prod.fst := by
  intro m
  induction m with
  | nil => simp [dictGet]
  | cons hd tl ih =>
    obtain ⟨k', v'⟩ := hd
    by_cases h : k' = k
    · simp [dictGet, h]
    · simp [dictGet, h, ih, Ne.symm h]

/-! ## Provider adapters (src/run.py) -/

/-- One formatted hit from the Google Custom Search adapter
(src/run.py lines 385-392). -/
structure SearchItem where
  title : String
  link : String
  snippet : String
deriving DecidableEq, Repr

/-- The value under the `response` key of a provider result: free text for the
LLM adapters, a list of search hits for `test_google_search`. -/
inductive RespVal where
  | text (s : String)
  | hits (l : List SearchItem)
deriving DecidableEq, Repr

/-- A provider result dict as built in src/run.py.  Each `Option` field models
presence of the corresponding key; the adapters' failure dicts carry only
`provider` and `error`. -/
structure ProviderResult where
  provider : String
  response : Option RespVal := none
  model : Option String := none
  success : Option Bool := none
  error : Option String := none
  query : Option String := none
  total_results : Option String := none
deriving DecidableEq, Repr

/-- The instance state of `FixedLLMTester` (src/run.py lines 133-141):
the module-level configured-provider list and the library-availability flags
captured in `__init__`. -/
structure TesterCfg where
  configured_providers : List String
  has_openai : Bool
  has_anthropic : Bool
  has_google : Bool

/-- The HTTP response of the Google Custom Search call
(src/run.py lines 374-398), as far as the adapter inspects it. -/
structure GSearchResp where
  status_code : Nat
  body : String
  items : List SearchItem
  totalResults : String

/-- Outcomes of the outbound vendor calls, the adapters' external boundary.
`.ok` carries what the adapter reads off a successful SDK response
((content, model) for the chat adapters); `.error e` is a raised exception
with text `e`, caught by the adapter's `except` clause.  `openai_v1` is
whether the installed openai library is v1.x with the new client importable
(src/run.py lines 255-284). -/
structure NetOracle where
  openai : Except String (String × String)
  anthropic : Except String (String × String)
  perplexity : Except String (String × String)
  openai_v1 : Bool
  google : Except String (String × String)
  gsearch : Except String GSearchResp

/-- `FixedLLMTester.test_openai` (src/run.py lines 143-213).  The three
library-version branches all build the same record shape
`{provider, response, model, success}`; exceptions in any of them are caught
and turned into `{provider, error}`. -/
def test_openai (cfg : TesterCfg) (net : NetOracle) (prompt : String) :
    ProviderResult :=
  if !(cfg.configured_providers.contains "openai") || !cfg.has_openai then
    { provider := "OpenAI", error := some "Not configured or library not installed" }
  else
    match net.openai with
    | .ok (content, modelUsed) =>
      { provider := "OpenAI", response := some (RespVal.text content),
        model := some modelUsed, success := some true }
    | .error e => { provider := "OpenAI", error := some e }

/-- `FixedLLMTester.test_anthropic` (src/run.py lines 215-243). -/
def test_anthropic (cfg : TesterCfg) (net : NetOracle) (prompt : String) :
    ProviderResult :=
  if !(cfg.configured_providers.contains "anthropic") || !cfg.has_anthropic then
    { provider := "Anthropic", error := some "Not configured or library not installed" }
  else
    match net.anthropic with
    | .ok (content, modelUsed) =>
      { provider := "Anthropic", response := some (RespVal.text content),
        model := some modelUsed, success := some true }
    | .error e => { provider := "Anthropic", error := some e }

/-- `FixedLLMTester.test_perplexity` (src/run.py lines 245-291).  Both the
old-library branch and the `ImportError` fallback return the same
"v1.x required" failure dict, folded into `net.openai_v1 = false`. -/
def test_perplexity (cfg : TesterCfg) (net : NetOracle) (prompt : String) :
    ProviderResult :=
  if !(cfg.configured_providers.contains "perplexity") then
    { provider := "Perplexity", error := some "Not configured" }
  else if !net.openai_v1 then
    { provider := "Perplexity", error := some "OpenAI library v1.x required for Perplexity API" }
  else
    match net.perplexity with
    | .ok (content, modelUsed) =>
      { provider := "Perplexity", response := some (RespVal.text content),
        model := some modelUsed, success := some true }
    | .error e => { provider := "Perplexity", error := some e }

/-- `FixedLLMTester.test_google` (src/run.py lines 293-355).  The new and
legacy client branches build the same record shape; import and API errors
all become `{provider, error}`. -/
def test_google (cfg : TesterCfg) (net : NetOracle) (prompt : String) :
    ProviderResult :=
  if !(cfg.configured_providers.contains "google") then
    { provider := "Google", error := some "Not configured" }
  else if !cfg.has_google then
    { provider := "Google", error := some "Google library not installed" }
  else
    match net.google with
    | .ok (content, modelUsed) =>
      { provider := "Google", response := some (RespVal.text content),
        model := some modelUsed, success := some true }
    | .error e => { provider := "Google", error := some e }

/-- `FixedLLMTester.test_google_search` (src/run.py lines 357-406).  Success
carries the formatted hits, the echoed query and a total-hit count, and no
`model` key; a non-200 status or a raised exception yields `{provider, error}`. -/
def test_google_search (cfg : TesterCfg) (net : NetOracle) (prompt : String) :
    ProviderResult :=
  if !(cfg.configured_providers.contains "google_search") then
    { provider := "Google Search", error := some "Not configured" }
  else
    match net.gsearch with
    | .error e => { provider := "Google Search", error := some e }
    | .ok resp =>
      if resp.status_code ≠ 200 then
        { provider := "Google Search",
          error := some ("API returned status " ++ toString resp.status_code ++ ": " ++ resp.body) }
      else
        { provider := "Google Search", response := some (RespVal.hits resp.items),
          query := some prompt, total_results := some resp.totalResults,
          success := some true }

/-- Success shape as the adapters actually build it: `success=true`, a
`response` payload, and no `error` key. -/
def isSuccess (r : ProviderResult) : Prop :=
  r.success = some true ∧ r.response.isSome = true ∧ r.error = none

/-- Failure shape as the adapters actually build it: an `error` message with
no `success` key (absent, hence falsy) and no `response`. -/
def isFailure (r : ProviderResult) : Prop :=
  r.success = none ∧ r.error.isSome = true ∧ r.response = none

instance (r : ProviderResult) : Decidable (isSuccess r) := by
  unfold isSuccess; infer_instance

instance (r : ProviderResult) : Decidable (isFailure r) := by
  unfold isFailure; infer_instance

/-- Success shape as the spec words it (claim C2): `{response, model, success=true}`. -/
def specSuccessShape (r : ProviderResult) : Prop :=
  r.success = some true ∧ r.response.isSome = true ∧ r.model.isSome = true

/-- Failure shape as the spec words it (claim C2): `{error, success=false}`. -/
def specFailureShape (r : ProviderResult) : Prop :=
  r.success = some false ∧ r.error.isSome = true

instance (r : ProviderResult) : Decidable (specSuccessShape r) := by
  unfold specSuccessShape; infer_instance

instance (r : ProviderResult) : Decidable (specFailureShape r) := by
  unfold specFailureShape; infer_instance

/-- Exactly one of the two shapes the adapters actually produce. -/
def shapeOk (r : ProviderResult) : Prop :=
  (isSuccess r ∧ ¬ isFailure r) ∨ (isFailure r ∧ ¬ isSuccess r)

/-! ## Backend orchestration (src/backend/app.py) -/

/-- `os.getenv`. -/
def EnvMap : Type := String → Option String

/-- Python truthiness of an optional string (`key and ...`). -/
def keyPresent (k : Option String) : Bool :=
  match k with
  | none => false
  | some s => s ≠ ""

/-- The placeholder test on one API key
(src/backend/app.py line 55): truthy and not a template value. -/
def keyConfigured (k : Option String) : Bool :=
  match k with
  | none => false
  | some s =>
    s ≠ "" && !s.startsWith "your-" && !s.startsWith "sk-your" && !s.startsWith "pplx-your"

/-- `init_services` (src/backend/app.py lines 35-62): the enabled-provider
list derived from which credentials are present and non-template.
`google_cx` never enters the list; `google_search` is appended after the loop
iff both the search key and the cx value are truthy. -/
def init_services (env : EnvMap) : List String :=
  let api_keys : List (String × Option String) :=
    [("openai", env "OPENAI_API_KEY"), ("anthropic", env "ANTHROPIC_API_KEY"),
     ("perplexity", env "PERPLEXITY_API_KEY"), ("google", env "GOOGLE_API_KEY"),
     ("google_search", env "GOOGLE_SEARCH_API_KEY"), ("google_cx", env "GOOGLE_SEARCH_CX")]
  let base := api_keys.foldl (fun acc pk =>
    if pk.1 = "google_cx" then acc
    else if keyConfigured pk.2 && pk.1 ≠ "google_search" then acc ++ [pk.1]
    else acc) []
  if keyPresent (env "GOOGLE_SEARCH_API_KEY") && keyPresent (env "GOOGLE_SEARCH_CX") then
    base ++ ["google_search"]
  else base

/-- The provider dispatch chain inside `process_query_async`
(src/backend/app.py lines 161-171): `result` stays `None` for provider names
outside the five recognised ones. -/
def dispatchProvider (cfg : TesterCfg) (net : NetOracle)
    (provider query_text : String) : Option ProviderResult :=
  if provider = "openai" then some (test_openai cfg net query_text)
  else if provider = "anthropic" then some (test_anthropic cfg net query_text)
  else if provider = "google" then some (test_google cfg net query_text)
  else if provider = "perplexity" then some (test_perplexity cfg net query_text)
  else if provider = "google_search" then some (test_google_search cfg net query_text)
  else none

/-- The five provider identifiers recognised by the dispatch chain. -/
def knownProviders : List String :=
  ["openai", "anthropic", "google", "perplexity", "google_search"]

/-- WebSocket events emitted by `process_query_async`. -/
inductive Event where
  | provider_start (p : String)
  | provider_complete (p : String)
  | analysis_complete (p : String)
  | query_complete
deriving DecidableEq, Repr

/-- The mutable per-job record in `query_results` as `process_query_async`
sees it, generic in the analysis payload type. -/
structure Job (α : Type) where
  status : String
  results : List (String × ProviderResult)
  analysis : Option (List (String × α))

/-- Job record plus the events emitted so far. -/
structure ProcState (α : Type) where
  job : Job α
  events : List Event

/-- One iteration of the provider loop in `process_query_async`
(src/backend/app.py lines 153-201): emit `provider_start`, dispatch, store a
non-None result, emit `provider_complete`, and chain analysis when the result
is successful, analysis is enabled, and the provider is not `google_search`.
`analyzeCall` is the (external) `analyzer.analyze_with_ai` outcome per
provider; `None` (analysis disabled) stores nothing. -/
def processProvider {α : Type} (cfg : TesterCfg) (net : NetOracle)
    (analyze_enabled : Bool) (analyzeCall : String → Option α)
    (query_text : String) (st : ProcState α) (provider : String) : ProcState α :=
  let st1 : ProcState α := { st with events := st.events ++ [Event.provider_start provider] }
  match dispatchProvider cfg net provider query_text with
  | none => st1
  | some result =>
    let st2 : ProcState α :=
      { job := { st1.job with results := dictInsert provider result st1.job.results },
        events := st1.events ++ [Event.provider_complete provider] }
    if result.success = some true ∧ analyze_enabled = true ∧ provider ≠ "google_search" then
      match analyzeCall provider with
      | some a =>
        { job := { st2.job with
            analysis := some (dictInsert provider a (st2.job.analysis.getD [])) },
          events := st2.events ++ [Event.analysis_complete provider] }
      | none => st2
    else st2

/-- The provider set the loop iterates over (src/backend/app.py lines
148-150): the caller-specified list when present, otherwise
`init_services()`.  No intersection with the enabled providers is taken. -/
def selectedSet (requested : Option (List String)) (env : EnvMap) : List String :=
  match requested with
  | none => init_services env
  | some l => l

/-- `process_query_async` (src/backend/app.py lines 133-220).  All modelled
steps are total, so the `except` branch that would set status `error`
(lines 212-220) is unreachable; the loop runs to completion and status is set
to `completed`. -/
def process_query_async {α : Type} (cfg : TesterCfg) (net : NetOracle)
    (analyze_enabled : Bool) (analyzeCall : String → Option α) (env : EnvMap)
    (query_text : String) (requested : Option (List String)) : ProcState α :=
  let selected := selectedSet requested env
  let st0 : ProcState α :=
    { job := { status := "processing", results := [], analysis := none }, events := [] }
  let st := selected.foldl
    (processProvider cfg net analyze_enabled analyzeCall query_text) st0
  { job := { st.job with status := "completed" },
    events := st.events ++ [Event.query_complete] }

/-- The providers for which a `provider_start` event was emitted, in order. -/
def startedProviders (evs : List Event) : List String :=
  evs.filterMap (fun e =>
    match e with
    | Event.provider_start p => some p
    | _ => none)

/-- The stored jobs map plus the wire response of `submit_query`. -/
structure JobRec where
  id : String
  query : String
  timestamp : String
  status : String
  results : List (String × ProviderResult)
  analysis : Option Unit
deriving DecidableEq, Repr

/-- `submit_query` (src/backend/app.py lines 100-131).  `new_id` and `now`
are the uuid and timestamp the external effects would produce; they are only
consumed after validation passes, matching the source order (the uuid is
generated at line 111, after the line-107 check).  The returned components
are (HTTP status, job store after the call, whether the processing thread was
started). -/
def submit_query (data_query : Option String) (new_id now : String)
    (store : List (String × JobRec)) : Nat × List (String × JobRec) × Bool :=
  match data_query with
  | none => (400, store, false)
  | some query_text =>
    if query_text = "" then (400, store, false)
    else
      (200,
       dictInsert new_id
         { id := new_id, query := query_text, timestamp := now,
           status := "processing", results := [], analysis := none } store,
       true)

/-! ### Orchestration lemmas -/

theorem processProvider_results_eq {α : Type} (cfg : TesterCfg) (net : NetOracle)
    (ae : Bool) (ac : String → Option α) (qt : String) (st : ProcState α) (p : String) :
    (processProvider cfg net ae ac qt st p).job.results =
      match dispatchProvider cfg net p qt with
      | some r => dictInsert p r st.job.results
      | none => st.job.results := by
  unfold processProvider
  cases hd : dispatchProvider cfg net p qt with
  | none => simp
  | some r =>
    simp only []
    split
    · cases ac p <;> simp
    · simp

theorem processProvider_started_eq {α : Type} (cfg : TesterCfg) (net : NetOracle)
    (ae : Bool) (ac : String → Option α) (qt : String) (st : ProcState α) (p : String) :
    startedProviders (processProvider cfg net ae ac qt st p).events =
      startedProviders st.events ++ [p] := by
  unfold processProvider startedProviders
  cases hd : dispatchProvider cfg net p qt with
  | none => simp [List.filterMap_append]
  | some r =>
    simp only []
    split
    · cases ac p <;> simp [List.filterMap_append]
    · simp [List.filterMap_append]

theorem foldl_results_get {α : Type} (cfg : TesterCfg) (net : NetOracle)
    (ae : Bool) (ac : String → Option α) (qt : String) :
    ∀ (sel : List String) (st : ProcState α) (q : String),
      dictGet q ((sel.foldl (processProvider cfg net ae ac qt) st)).job.results =
        match dispatchProvider cfg net q qt with
        | some r => if q ∈ sel then some r else dictGet q st.job.results
        | none => dictGet q st.job.results := by
  intro sel
  induction sel with
  | nil =>
    intro st q
    cases hd : dispatchProvider cfg net q qt <;> simp
  | cons p rest ih =>
    intro st q
    rw [List.foldl_cons, ih]
    cases hd : dispatchProvider cfg net q qt with
    | none =>
      rw [processProvider_results_eq]
      cases hdp : dispatchProvider cfg net p qt with
      | none => simp
      | some r' =>
        by_cases hq : q = p
        · subst hq
          rw [hd] at hdp
          cases hdp
        · simp [dictGet_dictInsert_ne p q r' (Ne.symm hq)]
    | some r =>
      by_cases hq : q = p
      · subst hq
        by_cases hmem : q ∈ rest <;>
          simp [hmem, processProvider_results_eq, hd, dictGet_dictInsert_self]
      · have hmemiff : q ∈ p :: rest ↔ q ∈ rest := by simp [hq]
        rw [processProvider_results_eq]
        cases hdp : dispatchProvider cfg net p qt with
        | none => simp [hmemiff]
        | some r' => simp [hmemiff, dictGet_dictInsert_ne p q r' (Ne.symm hq)]

theorem foldl_results_keys_nodup {α : Type} (cfg : TesterCfg) (net : NetOracle)
    (ae : Bool) (ac : String → Option α) (qt : String) :
    ∀ (sel : List String) (st : ProcState α),
      (st.job.results.map Prod.fst).Nodup →
      (((sel.foldl (processProvider cfg net ae ac qt) st)).job.results.map Prod.fst).Nodup := by
  intro sel
  induction sel with
  | nil => intro st h; simpa using h
  | cons p rest ih =>
    intro st h
    rw [List.foldl_cons]
    apply ih
    rw [processProvider_results_eq]
    cases hd : dispatchProvider cfg net p qt with
    | none => simpa using h
    | some r => simpa using dictInsert_keys_nodup p r _ h

theorem foldl_started {α : Type} (cfg : TesterCfg) (net : NetOracle)
    (ae : Bool) (ac : String → Option α) (qt : String) :
    ∀ (sel : List String) (st : ProcState α),
      startedProviders ((sel.foldl (processProvider cfg net ae ac qt) st)).events =
        startedProviders st.events ++ sel := by
  intro sel
  induction sel with
  | nil => intro st; simp
  | cons p rest ih =>
    intro st
    rw [List.foldl_cons, ih, processProvider_started_eq]
    simp

theorem process_query_async_status {α : Type} (cfg : TesterCfg) (net : NetOracle)
    (ae : Bool) (ac : String → Option α) (env : EnvMap) (qt : String)
    (requested : Option (List String)) :
    (process_query_async (α := α) cfg net ae ac env qt requested).job.status =
      "completed" := rfl

theorem process_query_async_results {α : Type} (cfg : TesterCfg) (net : NetOracle)
    (ae : Bool) (ac : String → Option α) (env : EnvMap) (qt : String)
    (requested : Option (List String)) :
    (process_query_async (α := α) cfg net ae ac env qt requested).job.results =
      (((selectedSet requested env).foldl (processProvider cfg net ae ac qt)
        { job := { status := "processing", results := [], analysis := none },
          events := [] })).job.results := rfl

theorem process_query_async_events {α : Type} (cfg : TesterCfg) (net : NetOracle)
    (ae : Bool) (ac : String → Option α) (env : EnvMap) (qt : String)
    (requested : Option (List String)) :
    (process_query_async (α := α) cfg net ae ac env qt requested).events =
      (((selectedSet requested env).foldl (processProvider cfg net ae ac qt)
        { job := { status := "processing", results := [], analysis := none },
          events := [] })).events ++ [Event.query_complete] := rfl

theorem dispatch_isSome_of_known (cfg : TesterCfg) (net : NetOracle) (qt : String)
    {p : String} (h : p ∈ knownProviders) :
    (dispatchProvider cfg net p qt).isSome = true := by
  simp only [knownProviders, List.mem_cons, List.mem_singleton, List.not_mem_nil,
    or_false] at h
  rcases h with rfl | rfl | rfl | rfl | rfl <;> simp [dispatchProvider]

theorem dispatch_none_of_unknown (cfg : TesterCfg) (net : NetOracle) (qt : String)
    {p : String} (h : p ∉ knownProviders) :
    dispatchProvider cfg net p qt = none := by
  simp only [knownProviders, List.mem_cons, List.mem_singleton, List.not_mem_nil,
    or_false, not_or] at h
  obtain ⟨h1, h2, h3, h4, h5⟩ := h
  simp [dispatchProvider, h1, h2, h3, h4, h5]

/-! ### Concrete configurations used to evaluate the orchestrator -/

/-- No credentials configured and every vendor call raising. -/
def cfg0 : TesterCfg :=
  { configured_providers := [], has_openai := false, has_anthropic := false,
    has_google := false }

def net0 : NetOracle :=
  { openai := .error "boom", anthropic := .error "boom", perplexity := .error "boom",
    openai_v1 := false, google := .error "boom", gsearch := .error "boom" }

/-- An environment with no variables set: `init_services` yields no providers. -/
def env0 : EnvMap := fun _ => none

/-- openai and anthropic configured; the openai call raises while anthropic
responds — the simulated always-failing-provider scenario. -/
def cfg1 : TesterCfg :=
  { configured_providers := ["openai", "anthropic"], has_openai := true,
    has_anthropic := true, has_google := false }

def net1 : NetOracle :=
  { openai := .error "rate limited",
    anthropic := .ok ("four", "claude-3-5-sonnet-20241022"),
    perplexity := .error "boom", openai_v1 := true, google := .error "boom",
    gsearch := .error "boom" }

/-! ### Claim theorems: orchestration -/

/-- C1: if one or more provider adapter calls within a job return a Failure
result, the job's status still transitions to `completed` rather than
`error`, and the result of every selected provider whose adapter was invoked
(in particular every other selected provider) is recorded in the job's
results map. -/
theorem provider_failure_keeps_job_completed {α : Type} (cfg : TesterCfg)
    (net : NetOracle) (ae : Bool) (ac : String → Option α) (env : EnvMap)
    (qt : String) (requested : Option (List String)) (p : String)
    (r : ProviderResult) (hp : p ∈ selectedSet requested env)
    (hdisp : dispatchProvider cfg net p qt = some r) (hfail : isFailure r) :
    (process_query_async (α := α) cfg net ae ac env qt requested).job.status =
      "completed" ∧
    ∀ q r', q ∈ selectedSet requested env →
      dispatchProvider cfg net q qt = some r' →
      dictGet q (process_query_async (α := α) cfg net ae ac env qt
        requested).job.results = some r' := by
  refine ⟨process_query_async_status cfg net ae ac env qt requested, ?_⟩
  intro q r' hq hd
  rw [process_query_async_results, foldl_results_get, hd]
  simp [hq]

/-- Witness for C1: with openai failing (rate limited) and anthropic
succeeding, the job over both completes and anthropic's result is stored. -/
theorem provider_failure_keeps_job_completed_witness :
    (process_query_async (α := Unit) cfg1 net1 false (fun _ => none) env0 "ping"
      (some ["openai", "anthropic"])).job.status = "completed" ∧
    dictGet "anthropic"
      (process_query_async (α := Unit) cfg1 net1 false (fun _ => none) env0 "ping"
        (some ["openai", "anthropic"])).job.results =
      some { provider := "Anthropic", response := some (RespVal.text "four"),
             model := some "claude-3-5-sonnet-20241022", success := some true } := by
  have h := provider_failure_keeps_job_completed (α := Unit) cfg1 net1 false
    (fun _ => none) env0 "ping" (some ["openai", "anthropic"]) "openai"
    { provider := "OpenAI", error := some "rate limited" }
    (by simp [selectedSet]) (by rfl) (by decide)
  exact ⟨h.1, h.2 "anthropic" _ (by simp [selectedSet]) (by rfl)⟩

/-- C2 (counterexample): the unconfigured-openai adapter output
`{provider: OpenAI, error: ...}` carries no `success` key at all, so it is
neither the spec's Success shape nor the spec's Failure shape
(`success=false`): the two spec shapes are not exhaustive over adapter
outputs. -/
theorem provider_result_spec_shape_counterexample :
    ¬ (specSuccessShape (test_openai cfg0 net0 "ping") ∨
       specFailureShape (test_openai cfg0 net0 "ping")) := by decide

/-- Exclusive shapes of an LLM adapter result as the code builds them:
either Success (`success=true`, a response, a model, no `error` key) or
Failure (an `error` message, with the `success` and `response` keys absent). -/
def llmShapeOk (r : ProviderResult) : Prop :=
  (isSuccess r ∧ r.model.isSome = true ∧ ¬ isFailure r) ∨
  (isFailure r ∧ ¬ isSuccess r)

/-- Exclusive shapes of a `test_google_search` result: Success carries the
hit list, the echoed query and a total-hit count but no `model` key; Failure
is as for the LLM adapters. -/
def searchShapeOk (r : ProviderResult) : Prop :=
  (isSuccess r ∧ r.model = none ∧ r.query.isSome = true ∧
    r.total_results.isSome = true ∧ ¬ isFailure r) ∨
  (isFailure r ∧ ¬ isSuccess r)

/-- C2 (amended): every adapter output is exactly one of two exclusive
shapes — Success `{response, model (except the search adapter, which carries
query and total_results instead), success=true}` or Failure `{error}` with
the `success` key absent (falsy by absence) rather than `success=false`. -/
theorem provider_result_exclusive_shapes (cfg : TesterCfg) (net : NetOracle)
    (prompt : String) :
    llmShapeOk (test_openai cfg net prompt) ∧
    llmShapeOk (test_anthropic cfg net prompt) ∧
    llmShapeOk (test_perplexity cfg net prompt) ∧
    llmShapeOk (test_google cfg net prompt) ∧
    searchShapeOk (test_google_search cfg net prompt) := by
  refine ⟨?_, ?_, ?_, ?_, ?_⟩
  · unfold llmShapeOk isSuccess isFailure test_openai
    split
    · right; simp
    · cases net.openai with
      | ok pr => obtain ⟨c, m⟩ := pr; left; simp
      | error e => right; simp
  · unfold llmShapeOk isSuccess isFailure test_anthropic
    split
    · right; simp
    · cases net.anthropic with
      | ok pr => obtain ⟨c, m⟩ := pr; left; simp
      | error e => right; simp
  · unfold llmShapeOk isSuccess isFailure test_perplexity
    split
    · right; simp
    · split
      · right; simp
      · cases net.perplexity with
        | ok pr => obtain ⟨c, m⟩ := pr; left; simp
        | error e => right; simp
  · unfold llmShapeOk isSuccess isFailure test_google
    split
    · right; simp
    · split
      · right; simp
      · cases net.google with
        | ok pr => obtain ⟨c, m⟩ := pr; left; simp
        | error e => right; simp
  · unfold searchShapeOk isSuccess isFailure test_google_search
    split
    · right; simp
    · cases hg : net.gsearch with
      | error e => simp only [hg]; right; simp
      | ok resp =>
        simp only [hg]
        by_cases hs : resp.status_code = 200
        · simp only [hs, ne_eq, not_true_eq_false, if_false]
          left; simp
        · simp only [ne_eq, hs, not_false_eq_true, if_true]
          right; simp

/-- C3 (counterexample): with no enabled providers and a caller-specified
subset `["openai"]`, the orchestrator still fans out to `openai` (a
`provider_start` is emitted for it), which differs from the intersection of
the subset with the enabled providers (empty). -/
theorem fanout_not_intersection_counterexample :
    init_services env0 = [] ∧
    startedProviders (process_query_async (α := Unit) cfg0 net0 false
      (fun _ => none) env0 "ping" (some ["openai"])).events = ["openai"] ∧
    startedProviders (process_query_async (α := Unit) cfg0 net0 false
      (fun _ => none) env0 "ping" (some ["openai"])).events ≠
      List.inter ["openai"] (init_services env0) := by
  refine ⟨rfl, by decide, by decide⟩

/-- C3 (amended): the set of providers the orchestrator fans out to equals
the caller-specified subset exactly as given when one is specified (no
intersection with the enabled providers is taken), and the full
`init_services` enabled list when unspecified. -/
theorem fanout_equals_requested_else_enabled {α : Type} (cfg : TesterCfg)
    (net : NetOracle) (ae : Bool) (ac : String → Option α) (env : EnvMap)
    (qt : String) (requested : Option (List String)) :
    startedProviders (process_query_async (α := α) cfg net ae ac env qt
      requested).events =
      match requested with
      | some l => l
      | none => init_services env := by
  rw [process_query_async_events]
  unfold startedProviders
  rw [List.filterMap_append]
  have h := foldl_started cfg net ae ac qt (selectedSet requested env)
    { job := { status := "processing", results := [], analysis := none },
      events := [] }
  unfold startedProviders at h
  rw [h]
  cases requested <;> simp [selectedSet]

/-- C4 (counterexample): a job whose selected set is `["newsapi"]` (an
identifier outside the five supported ones) reaches the terminal status
`completed` with zero entries for `newsapi` in its results map, not exactly
one. -/
theorem unknown_provider_no_result_counterexample :
    (process_query_async (α := Unit) cfg0 net0 false (fun _ => none) env0 "ping"
      (some ["newsapi"])).job.status = "completed" ∧
    List.count "newsapi"
      ((process_query_async (α := Unit) cfg0 net0 false (fun _ => none) env0 "ping"
        (some ["newsapi"])).job.results.map Prod.fst) = 0 := by
  constructor <;> rfl

/-- C4 (amended): once a job reaches its terminal status (`completed` in this
embedding, whose modelled steps are total), every provider of its selected
set that is one of the five supported identifiers has exactly one entry in
the results map, while identifiers outside the supported set have none. -/
theorem known_selected_provider_exactly_one_result {α : Type} (cfg : TesterCfg)
    (net : NetOracle) (ae : Bool) (ac : String → Option α) (env : EnvMap)
    (qt : String) (requested : Option (List String)) (p : String)
    (hsel : p ∈ selectedSet requested env) (hknown : p ∈ knownProviders) :
    (process_query_async (α := α) cfg net ae ac env qt requested).job.status =
      "completed" ∧
    List.count p ((process_query_async (α := α) cfg net ae ac env qt
      requested).job.results.map Prod.fst) = 1 ∧
    ∀ q, q ∉ knownProviders →
      List.count q ((process_query_async (α := α) cfg net ae ac env qt
        requested).job.results.map Prod.fst) = 0 := by
  refine ⟨process_query_async_status cfg net ae ac env qt requested, ?_, ?_⟩
  · have hnodup : (((process_query_async (α := α) cfg net ae ac env qt
        requested).job.results).map Prod.fst).Nodup := by
      rw [process_query_async_results]
      exact foldl_results_keys_nodup cfg net ae ac qt _ _ (by simp)
    have hle := (List.nodup_iff_count_le_one.mp hnodup) p
    have hmem : p ∈ ((process_query_async (α := α) cfg net ae ac env qt
        requested).job.results).map Prod.fst := by
      rw [← dictGet_isSome_iff_mem_keys]
      rw [process_query_async_results, foldl_results_get]
      have hs := dispatch_isSome_of_known cfg net qt hknown
      cases hd : dispatchProvider cfg net p qt with
      | none => rw [hd] at hs; cases hs
      | some r => simp [hsel]
    have hpos : 0 < List.count p ((process_query_async (α := α) cfg net ae ac
        env qt requested).job.results.map Prod.fst) :=
      List.count_pos_iff.mpr hmem
    omega
  · intro q hq
    rw [List.count_eq_zero]
    intro hmem
    rw [← dictGet_isSome_iff_mem_keys] at hmem
    rw [process_query_async_results, foldl_results_get,
      dispatch_none_of_unknown cfg net qt hq] at hmem
    simp [dictGet] at hmem

/-- Witness for C4 (amended): `openai` selected explicitly against an
unconfigured registry still gets exactly one (Failure) entry. -/
theorem known_selected_provider_exactly_one_result_witness :
    List.count "openai"
      ((process_query_async (α := Unit) cfg0 net0 false (fun _ => none) env0
        "ping" (some ["openai"])).job.results.map Prod.fst) = 1 :=
  (known_selected_provider_exactly_one_result (α := Unit) cfg0 net0 false
    (fun _ => none) env0 "ping" (some ["openai"]) "openai"
    (by simp [selectedSet]) (by decide)).2.1

/-! ### Claim theorems: submission validation -/

/-- C9: a POST /query body whose query field is missing or the empty string
is rejected with HTTP 400, the job store is unchanged (no record added, so no
job id enters the store) and no processing thread is started. -/
theorem empty_query_rejected (dq : Option String) (new_id now : String)
    (store : List (String × JobRec)) (h : dq = none ∨ dq = some "") :
    submit_query dq new_id now store = (400, store, false) := by
  rcases h with rfl | rfl <;> simp [submit_query]

/-- Witness for C9: the empty-string query is rejected without touching an
empty store. -/
theorem empty_query_rejected_witness :
    submit_query (some "") "id-1" "2025-01-01T00:00:00" [] = (400, [], false) :=
  empty_query_rejected (some "") "id-1" "2025-01-01T00:00:00" [] (Or.inr rfl)

/-- C10: a non-empty query consisting only of whitespace passes the Python
falsiness check: the submission is accepted (HTTP 200), a job record with
status `processing` is stored under the fresh id, and the background thread
is started. -/
theorem whitespace_query_accepted (s : String) (new_id now : String)
    (store : List (String × JobRec)) (hne : s ≠ "")
    (hws : ∀ c ∈ s.toList, c = ' ' ∨ c = '\t' ∨ c = '\n' ∨ c = '\r') :
    submit_query (some s) new_id now store =
      (200,
       dictInsert new_id
         { id := new_id, query := s, timestamp := now, status := "processing",
           results := [], analysis := none } store,
       true) := by
  simp [submit_query, hne]

/-- Witness for C10: the single-space query " " is accepted and stored with
status `processing`. -/
theorem whitespace_query_accepted_witness :
    submit_query (some " ") "id-1" "2025-01-01T00:00:00" [] =
      (200,
       [("id-1",
         { id := "id-1", query := " ", timestamp := "2025-01-01T00:00:00",
           status := "processing", results := [], analysis := none })],
       true) :=
  whitespace_query_accepted " " "id-1" "2025-01-01T00:00:00" []
    (by decide) (by decide)

/-! ## Analyzer: string utilities (Python semantics over `List Char`) -/

/-- `pat` is a prefix of the second list (`str.startswith`). -/
def startsWithL : List Char → List Char → Bool
  | [], _ => true
  | _ :: _, [] => false
  | p :: ps, c :: cs => p = c && startsWithL ps cs

/-- Python substring test `pat in s` for a non-empty pattern. -/
def containsSub (pat : List Char) : List Char → Bool
  | [] => pat.isEmpty
  | c :: cs => startsWithL pat (c :: cs) || containsSub pat cs

/-- Python `str.lower()` (per-character, sufficient for the ASCII data the
analyzer compares). -/
def lowerL (l : List Char) : List Char := l.map Char.toLower

/-- The characters Python's `\s` and `str.strip()` treat as whitespace
(ASCII part; the analyzer's data is ASCII). -/
def isPyWs (c : Char) : Bool :=
  c = ' ' || c = '\t' || c = '\n' || c = '\r' || c = '\x0b' || c = '\x0c'

/-- Python `str.strip()` on a `String`. -/
def pyStripS (s : String) : String :=
  (((s.toList.dropWhile isPyWs).reverse.dropWhile isPyWs).reverse).asString

/-- Python `str.lower()` on a `String`. -/
def pyLowerS (s : String) : String := (s.toList.map Char.toLower).asString

/-- Python `len` on a `String` (character count). -/
def pyLen (s : String) : Nat := s.toList.length

/-! ## Analyzer: the analysis prompt and the dead truncation (claim C5) -/

/-- The f-string text of `analysis_prompt` before the interpolated query
(src/analyzer.py lines 57-78). -/
def promptHead : List Char :=
  ("Analyze this AI response for SEO/AISEO optimization insights.\n\nExtract the following information in JSON format:\n\n1. companies_mentioned: List all companies/brands/products mentioned\n2. mention_reasons: For each company, why was it mentioned? (features, authority, popularity, etc.)\n3. authority_signals: Authority phrases used (e.g., \"leading\", \"popular\", \"trusted\", \"industry standard\")\n4. key_features: What features/benefits were highlighted as important?\n5. sources_cited: Extract ALL sources and references, including:\n   - Explicit URLs or website mentions (e.g., \"investopedia.com\", \"https://...\")\n   - Named products/platforms/tools (e.g., \"iShares\", \"Aladdin platform\", \"Russell Indices\")\n   - Industry reports or indices mentioned (e.g., \"S&P 500\", \"Russell 2000\")\n   - Specific data sources or statistics cited (e.g., \"according to...\", \"data from...\")\n   - Publications or media outlets referenced (e.g., \"Forbes\", \"Wall Street Journal\")\n   - Research firms or rating agencies (e.g., \"Morningstar\", \"Moody\x27s\")\n   - Any parenthetical citations or footnotes\n   IMPORTANT: Include ANY named entity that serves as a source of information or authority\n6. ranking_factors: What seems to determine the order/prominence of mentions?\n7. sentiment: Overall sentiment toward mentioned entities (positive/neutral/negative)\n8. optimization_insights: Specific actionable tips for AISEO based on this response\n\nOriginal Query: ").toList

/-- The f-string text between the query and the provider. -/
def promptMidProvider : List Char := ("\nProvider: ").toList

/-- The f-string text between the provider and the response. -/
def promptMidResponse : List Char := ("\n\nResponse to analyze:\n").toList

/-- The f-string text after the response (src/analyzer.py line 84). -/
def promptTail : List Char :=
  ("\n\nReturn ONLY valid JSON with these exact keys. For sources_cited, be comprehensive - extract anything that could be considered a source, reference, or authoritative mention. Be specific and actionable in optimization_insights.").toList

/-- The `analysis_prompt` f-string of `analyze_with_ai` (src/analyzer.py
lines 57-84), interpolating query, provider and the response text. -/
def analysis_prompt (response_str query provider : List Char) : List Char :=
  promptHead ++ query ++ promptMidProvider ++ provider ++ promptMidResponse ++
    response_str ++ promptTail

/-- The truncation marker appended at src/analyzer.py line 96. -/
def truncMarker : List Char := ("... [truncated for analysis]").toList

/-- The user-message content `analyze_with_ai` actually sends
(src/analyzer.py lines 48-107): the prompt is interpolated at line 57 from
the untruncated `response_str`; lines 95-96 rebind `response_str` *after*
the prompt string has been built, so the content passed at line 102 is the
prompt holding the full text.  The shadowing below mirrors the Python
reassignment. -/
def analyze_user_message (response_text query provider : List Char) : List Char :=
  let response_str := response_text
  let prompt_text := analysis_prompt response_str query provider
  let response_str := if 5000 < response_str.length
    then response_str.take 5000 ++ truncMarker
    else response_str
  prompt_text

/-- Modelled from the spec: the message the truncation was meant to produce —
the prompt built from the text truncated to 5000 characters plus the
marker. -/
def truncated_user_message (response_text query provider : List Char) : List Char :=
  analysis_prompt
    (if 5000 < response_text.length
      then response_text.take 5000 ++ truncMarker
      else response_text) query provider

theorem analysis_prompt_length (r q p : List Char) :
    (analysis_prompt r q p).length =
      promptHead.length + q.length + promptMidProvider.length + p.length +
        promptMidResponse.length + r.length + promptTail.length := by
  simp only [analysis_prompt, List.length_append]

/-- C5 (code bug): for a 5001-character response the message actually sent
to the secondary model embeds the full text — it equals the prompt built
from the untruncated text and differs from the prompt built from the
truncated text, so the line 95-96 truncation never reaches the request. -/
theorem truncation_never_reaches_message :
    analyze_user_message (List.replicate 5001 'a') ("q").toList ("OpenAI").toList =
      analysis_prompt (List.replicate 5001 'a') ("q").toList ("OpenAI").toList ∧
    analyze_user_message (List.replicate 5001 'a') ("q").toList ("OpenAI").toList ≠
      truncated_user_message (List.replicate 5001 'a') ("q").toList ("OpenAI").toList := by
  have hB : truncated_user_message (List.replicate 5001 'a') ("q").toList
      ("OpenAI").toList =
      analysis_prompt ((List.replicate 5001 'a').take 5000 ++ truncMarker)
        ("q").toList ("OpenAI").toList := by
    unfold truncated_user_message
    rw [if_pos (show 5000 < (List.replicate 5001 'a').length by
      rw [List.length_replicate]; omega)]
  refine ⟨rfl, ?_⟩
  rw [show analyze_user_message (List.replicate 5001 'a') ("q").toList
      ("OpenAI").toList =
      analysis_prompt (List.replicate 5001 'a') ("q").toList ("OpenAI").toList
    from rfl, hB]
  intro h
  have hlen := congrArg List.length h
  rw [analysis_prompt_length, analysis_prompt_length] at hlen
  have e1 : (List.replicate 5001 'a').length = 5001 := by
    rw [List.length_replicate]
  have e2 : ((List.replicate 5001 'a').take 5000 ++ truncMarker).length = 5028 := by
    rw [List.length_append, List.length_take, List.length_replicate]
    have hm : truncMarker.length = 28 := rfl
    omega
  rw [e1, e2] at hlen
  omega

/-! ## Analyzer: sources-cited extraction and deduplication (claim C6) -/

/-- The fixed known-source list of `_extract_additional_sources`
(src/analyzer.py lines 192-199). -/
def known_items : List String :=
  ["Aladdin", "iShares", "SPDR", "Russell Indices", "Russell 2000", "Russell 3000",
   "S&P 500", "S&P Global", "Dow Jones", "NASDAQ", "NYSE", "FTSE",
   "Morningstar", "Bloomberg Terminal", "Reuters", "FactSet", "Refinitiv",
   "MSCI", "Lipper", "Barclays Indices", "ICE Data", "CRSP",
   "Schwab Intelligent Portfolios", "Vanguard Personal Advisor Services",
   "ETF.com", "Investopedia", "SEC filings", "EDGAR database"]

/-- One step of the cleanup loop of `_extract_additional_sources`
(src/analyzer.py lines 211-222): the state is (seen lowercased forms,
cleaned output). -/
def cleanStep (st : List String × List String) (source : String) :
    List String × List String :=
  let s := pyStripS source
  if 2 < pyLen s ∧ pyLen s < 100 then
    let n := pyLowerS s
    if n ∈ st.1 then st else (st.1 ++ [n], st.2 ++ [s])
  else st

/-- The cleanup-and-cap of `_extract_additional_sources`
(src/analyzer.py lines 210-224): strip, keep lengths strictly between 2 and
100, dedupe case-insensitively keeping first occurrences, cap at 30. -/
def cleanSources (l : List String) : List String :=
  (l.foldl cleanStep ([], [])).2.take 30

/-- `_extract_additional_sources` (src/analyzer.py lines 161-224).  The
`re.findall` results of the `patterns_to_extract` loop (already stripped and
length-filtered as at lines 183-189) and of the URL regex are produced by
the external regex engine and passed as `patternMatches` and `urls`; the
known-items test runs on the actual lowercased response text. -/
def extract_additional_sources (response_text : List Char)
    (existing_sources patternMatches urls : List String) : List String :=
  let text_lower := lowerL response_text
  let all1 := existing_sources ++ patternMatches
  let all2 := known_items.foldl (fun acc item =>
    if containsSub ((pyLowerS item).toList) text_lower && !(acc.contains item)
    then acc ++ [item] else acc) all1
  let all3 := all2 ++ urls.filter (fun u => !(all2.contains u))
  cleanSources all3

/-- The fixed known-source list of `_get_fallback_analysis`
(src/analyzer.py lines 272-278). -/
def known_sources_fallback : List String :=
  ["Russell Indices", "S&P 500", "Dow Jones", "NASDAQ", "NYSE",
   "Morningstar", "Bloomberg", "Reuters", "Forbes", "Wall Street Journal",
   "Financial Times", "Barron\x27s", "CNBC", "Yahoo Finance",
   "iShares", "SPDR", "Aladdin", "FactSet", "Refinitiv"]

/-- The authority keywords scanned by the fallback (src/analyzer.py line 246). -/
def authority_words : List String :=
  ["leading", "popular", "trusted", "best", "top", "industry", "standard", "widely"]

/-- The sources-cited computation of `_get_fallback_analysis`
(src/analyzer.py lines 251-290).  URL-regex hits, raw citation-pattern
matches and platform-pattern matches come from the external regex engine
(`urls`, `citeMatches`, `platformMatches`); known sources are matched by
substring on the actual lowercased text.  The final
`list(set(...))[:20]` is modelled with `List.dedup` followed by `take 20`
(Python leaves the set's iteration order unspecified; only membership and
distinctness matter). -/
def fallback_sources (response_text : List Char)
    (urls citeMatches platformMatches : List String) : List String :=
  let text_lower := lowerL response_text
  let s1 := urls
  let s2 := s1 ++ (citeMatches.map pyStripS).filter (fun m => 3 < pyLen m)
  let s3 := s2 ++ known_sources_fallback.filter
    (fun src => containsSub ((pyLowerS src).toList) text_lower)
  let s4 := s3 ++ platformMatches.filter (fun m => 2 < pyLen m)
  ((s4.filter (fun s => s ≠ "" && 2 < pyLen (pyStripS s))).dedup).take 20

theorem cleanStep_fold_inv :
    ∀ (l : List String) (seen out : List String),
      (∀ x ∈ out, pyLowerS x ∈ seen) →
      out.Pairwise (fun a b => pyLowerS a ≠ pyLowerS b) →
      (∀ x ∈ (l.foldl cleanStep (seen, out)).2,
          pyLowerS x ∈ (l.foldl cleanStep (seen, out)).1) ∧
        (l.foldl cleanStep (seen, out)).2.Pairwise
          (fun a b => pyLowerS a ≠ pyLowerS b) := by
  intro l
  induction l with
  | nil => intro seen out h1 h2; exact ⟨h1, h2⟩
  | cons a rest ih =>
    intro seen out h1 h2
    rw [List.foldl_cons]
    by_cases hrange : 2 < pyLen (pyStripS a) ∧ pyLen (pyStripS a) < 100
    · by_cases hseen : pyLowerS (pyStripS a) ∈ seen
      · have hstep : cleanStep (seen, out) a = (seen, out) := by
          simp [cleanStep, hrange, hseen]
        rw [hstep]
        exact ih seen out h1 h2
      · have hstep : cleanStep (seen, out) a =
            (seen ++ [pyLowerS (pyStripS a)], out ++ [pyStripS a]) := by
          simp [cleanStep, hrange, hseen]
        rw [hstep]
        have h1' : ∀ x ∈ out ++ [pyStripS a],
            pyLowerS x ∈ seen ++ [pyLowerS (pyStripS a)] := by
          intro x hx
          rcases List.mem_append.mp hx with hx | hx
          · exact List.mem_append.mpr (Or.inl (h1 x hx))
          · rw [List.mem_singleton] at hx
            subst hx
            exact List.mem_append.mpr (Or.inr (List.mem_singleton.mpr rfl))
        have h2' : (out ++ [pyStripS a]).Pairwise
            (fun a b => pyLowerS a ≠ pyLowerS b) := by
          rw [List.pairwise_append]
          refine ⟨h2, List.pairwise_singleton _ _, ?_⟩
          intro x hx y hy
          rw [List.mem_singleton] at hy
          subst hy
          intro hcontra
          exact hseen (hcontra ▸ h1 x hx)
        exact ih _ _ h1' h2'
    · have hstep : cleanStep (seen, out) a = (seen, out) := by
        simp [cleanStep, hrange]
      rw [hstep]
      exact ih seen out h1 h2

theorem cleanSources_spec (l : List String) :
    (cleanSources l).length ≤ 30 ∧
    (cleanSources l).Pairwise (fun a b => pyLowerS a ≠ pyLowerS b) := by
  unfold cleanSources
  refine ⟨List.length_take_le 30 _, ?_⟩
  exact List.Pairwise.sublist (List.take_sublist _ _)
    (cleanStep_fold_inv l [] [] (by simp) (by simp)).2

/-- C6 (counterexample): the fallback path dedups case-sensitively — for the
response text "(Abcd) (abcd)" the parenthetical-citation regex (run with
IGNORECASE) yields both casings, the other patterns and known sources match
nothing, and the produced sources list keeps both entries, which are equal
case-insensitively. -/
theorem fallback_sources_case_duplicate_counterexample :
    fallback_sources (("(Abcd) (abcd)").toList) [] ["Abcd", "abcd"] [] =
      ["Abcd", "abcd"] ∧
    pyLowerS "Abcd" = pyLowerS "abcd" := by
  constructor <;> rfl

/-- C6 (amended): on the AI path, `sourcesCited` (the
`_extract_additional_sources` output) has no two case-insensitively equal
entries and at most 30 elements; on the heuristic fallback path it has at
most 20 elements and no exact duplicates, but entries differing only in case
may both appear. -/
theorem sources_cited_dedup_and_bounds (response_text : List Char)
    (existing patternMatches urls citeMatches platformMatches : List String) :
    (extract_additional_sources response_text existing patternMatches urls).length ≤ 30 ∧
    (extract_additional_sources response_text existing patternMatches urls).Pairwise
      (fun a b => pyLowerS a ≠ pyLowerS b) ∧
    (fallback_sources response_text urls citeMatches platformMatches).length ≤ 20 ∧
    (fallback_sources response_text urls citeMatches platformMatches).Nodup := by
  refine ⟨(cleanSources_spec _).1, (cleanSources_spec _).2,
    List.length_take_le 20 _, ?_⟩
  exact List.Nodup.sublist (List.take_sublist _ _) (List.nodup_dedup _)

/-! ## JSON values and a model of `json.loads` (used by analyze_with_ai,
src/analyzer.py lines 109-128) -/

/-- A parsed JSON value.  Numbers keep their lexeme and strings their raw
(still escaped) source characters — the analyzer's control flow never
inspects the decoded values, only the structure. -/
inductive JVal where
  | jnull
  | jbool (b : Bool)
  | jnum (lexeme : List Char)
  | jstr (content : List Char)
  | jarr (elems : List JVal)
  | jobj (members : List (List Char × JVal))

/-- A JSON object as a key-value list (a Python dict). -/
abbrev JMap := List (List Char × JVal)

/-- JSON (and `json.loads`) whitespace. -/
def isJsonWs (c : Char) : Bool := c = ' ' || c = '\t' || c = '\n' || c = '\r'

def skipJsonWs : List Char → List Char
  | [] => []
  | c :: cs => if isJsonWs c then skipJsonWs cs else c :: cs

def isDigitCh (c : Char) : Bool := '0' ≤ c && c ≤ '9'

def spanDigits : List Char → List Char × List Char
  | [] => ([], [])
  | c :: cs =>
    if isDigitCh c then
      let (ds, r) := spanDigits cs
      (c :: ds, r)
    else ([], c :: cs)

/-- The optional exponent part of a JSON number. -/
def parseNumberExp (acc : List Char) (l : List Char) :
    Option (List Char × List Char) :=
  match l with
  | [] => some (acc, [])
  | e :: r =>
    if e = 'e' || e = 'E' then
      let (sg, r2) := match r with
        | '+' :: rr => (['+'], rr)
        | '-' :: rr => (['-'], rr)
        | _ => (([] : List Char), r)
      match spanDigits r2 with
      | ([], _) => none
      | (ds, r3) => some (acc ++ e :: (sg ++ ds), r3)
    else some (acc, e :: r)

/-- The optional fraction part of a JSON number, then the exponent. -/
def parseNumberFrac (acc : List Char) (l : List Char) :
    Option (List Char × List Char) :=
  match l with
  | '.' :: r =>
    (match spanDigits r with
      | ([], _) => none
      | (ds, r2) => parseNumberExp (acc ++ '.' :: ds) r2)
  | _ => parseNumberExp acc l

/-- A JSON number token (lexeme), per the `json.loads` grammar:
`-? (0 | [1-9][0-9]*) (. [0-9]+)? ([eE][+-]?[0-9]+)?`. -/
def parseNumber (l : List Char) : Option (List Char × List Char) :=
  let (sign, r1) := match l with
    | '-' :: r => ((['-'] : List Char), r)
    | _ => (([] : List Char), l)
  match r1 with
  | [] => none
  | c :: cs =>
    if c = '0' then parseNumberFrac (sign ++ [c]) cs
    else if isDigitCh c then
      let (ds, r2) := spanDigits cs
      parseNumberFrac (sign ++ c :: ds) r2
    else none

def isHexDigit (c : Char) : Bool :=
  isDigitCh c || ('a' ≤ c && c ≤ 'f') || ('A' ≤ c && c ≤ 'F')

/-- The body of a JSON string after the opening quote, kept raw (escapes
validated but not decoded); raw control characters are rejected as in
Python's strict mode. -/
def parseStringBody : List Char → Option (List Char × List Char)
  | [] => none
  | c :: rest =>
    if c = '"' then some ([], rest)
    else if c = '\\' then
      match rest with
      | [] => none
      | e :: rest2 =>
        if e = '"' || e = '\\' || e = '/' || e = 'b' || e = 'f' || e = 'n' ||
            e = 'r' || e = 't' then
          match parseStringBody rest2 with
          | some (s, r) => some (c :: e :: s, r)
          | none => none
        else if e = 'u' then
          match rest2 with
          | h1 :: h2 :: h3 :: h4 :: rest3 =>
            if isHexDigit h1 && isHexDigit h2 && isHexDigit h3 && isHexDigit h4 then
              match parseStringBody rest3 with
              | some (s, r) => some (c :: e :: h1 :: h2 :: h3 :: h4 :: s, r)
              | none => none
            else none
          | _ => none
        else none
    else if c.toNat < 32 then none
    else
      match parseStringBody rest with
      | some (s, r) => some (c :: s, r)
      | none => none

mutual

/-- Parse one JSON value (strict grammar: no trailing commas), structural on
`fuel`. -/
def parseValue : Nat → List Char → Option (JVal × List Char)
  | 0, _ => none
  | Nat.succ fuel, s =>
    match skipJsonWs s with
    | [] => none
    | c :: rest =>
      if c = '{' then
        match parseMembers fuel rest with
        | some (m, r) => some (JVal.jobj m, r)
        | none => none
      else if c = '[' then
        match parseElems fuel rest with
        | some (l, r) => some (JVal.jarr l, r)
        | none => none
      else if c = '"' then
        match parseStringBody rest with
        | some (cs, r) => some (JVal.jstr cs, r)
        | none => none
      else if c = 't' then
        match rest with
        | 'r' :: 'u' :: 'e' :: r => some (JVal.jbool true, r)
        | _ => none
      else if c = 'f' then
        match rest with
        | 'a' :: 'l' :: 's' :: 'e' :: r => some (JVal.jbool false, r)
        | _ => none
      else if c = 'n' then
        match rest with
        | 'u' :: 'l' :: 'l' :: r => some (JVal.jnull, r)
        | _ => none
      else if c = '-' || isDigitCh c then
        match parseNumber (c :: rest) with
        | some (lex, r) => some (JVal.jnum lex, r)
        | none => none
      else none

/-- Object members after `{`: empty object or one-or-more members. -/
def parseMembers : Nat → List Char → Option (JMap × List Char)
  | 0, _ => none
  | Nat.succ fuel, s =>
    match skipJsonWs s with
    | '}' :: r => some ([], r)
    | _ => parseMembersRest fuel s

/-- One or more `"key": value` members; a comma must be followed by another
member, so a trailing comma fails. -/
def parseMembersRest : Nat → List Char → Option (JMap × List Char)
  | 0, _ => none
  | Nat.succ fuel, s =>
    match skipJsonWs s with
    | '"' :: r =>
      (match parseStringBody r with
        | none => none
        | some (k, r2) =>
          match skipJsonWs r2 with
          | ':' :: r3 =>
            (match parseValue fuel r3 with
              | none => none
              | some (v, r4) =>
                match skipJsonWs r4 with
                | ',' :: r5 =>
                  (match parseMembersRest fuel r5 with
                    | some (ms, r6) => some ((k, v) :: ms, r6)
                    | none => none)
                | '}' :: r5 => some ([(k, v)], r5)
                | _ => none)
          | _ => none)
    | _ => none

/-- Array elements after `[`: empty array or one-or-more elements. -/
def parseElems : Nat → List Char → Option (List JVal × List Char)
  | 0, _ => none
  | Nat.succ fuel, s =>
    match skipJsonWs s with
    | ']' :: r => some ([], r)
    | _ => parseElemsRest fuel s

/-- One or more comma-separated values; a comma must be followed by another
value, so a trailing comma fails. -/
def parseElemsRest : Nat → List Char → Option (List JVal × List Char)
  | 0, _ => none
  | Nat.succ fuel, s =>
    match parseValue fuel s with
    | none => none
    | some (v, r) =>
      match skipJsonWs r with
      | ',' :: r2 =>
        (match parseElemsRest fuel r2 with
          | some (vs, r3) => some (v :: vs, r3)
          | none => none)
      | ']' :: r2 => some ([v], r2)
      | _ => none

end

/-- Python `json.loads`: parse one value and require only whitespace after.
The fuel bound exceeds any possible call depth for the input. -/
def json_loads (s : List Char) : Option JVal :=
  match parseValue (2 * s.length + 4) s with
  | some (v, r) => if (skipJsonWs r).isEmpty then some v else none
  | none => none

/-! ## The trailing-comma repair and fence stripping (src/analyzer.py
lines 109-128) -/

def spanPyWs : List Char → List Char × List Char
  | [] => ([], [])
  | c :: cs =>
    if isPyWs c then
      let (ws, r) := spanPyWs cs
      (c :: ws, r)
    else ([], c :: cs)

/-- Match `\s*C` (the tail of the pattern `,\s*C`), returning the remainder
after `C`. -/
def matchWsClose (close : Char) (l : List Char) : Option (List Char) :=
  match (spanPyWs l).2 with
  | c :: r => if c = close then some r else none
  | [] => none

theorem spanPyWs_snd_length : ∀ l : List Char, (spanPyWs l).2.length ≤ l.length := by
  intro l
  induction l with
  | nil => simp [spanPyWs]
  | cons c cs ih =>
    by_cases h : isPyWs c
    · simp only [spanPyWs, if_pos h]
      calc (spanPyWs cs).2.length ≤ cs.length := ih
        _ ≤ (c :: cs).length := by simp
    · simp [spanPyWs, if_neg h]

theorem matchWsClose_length {close : Char} {l r : List Char}
    (h : matchWsClose close l = some r) : r.length < l.length := by
  have hlen := spanPyWs_snd_length l
  unfold matchWsClose at h
  cases hs : (spanPyWs l).2 with
  | nil => rw [hs] at h; cases h
  | cons c cs =>
    rw [hs] at h
    dsimp only at h
    split at h
    · cases h
      rw [hs] at hlen
      simp only [List.length_cons] at hlen
      omega
    · cases h

/-- `re.sub(r',\s*C', 'C', s)` for a closing character `C`: scan left to
right; at a comma followed by whitespace and `C`, emit `C` and resume after
it; otherwise keep scanning.  The fuel (initially the input length) only
retires; it never runs out on the initial call. -/
def subCommaCloseFuel (close : Char) : Nat → List Char → List Char
  | _, [] => []
  | 0, l => l
  | Nat.succ fuel, c :: rest =>
    if c = ',' then
      match matchWsClose close rest with
      | some r2 => close :: subCommaCloseFuel close fuel r2
      | none => c :: subCommaCloseFuel close fuel rest
    else c :: subCommaCloseFuel close fuel rest

/-- One global regex substitution `,\s*C → C`. -/
def subCommaClose (close : Char) (l : List Char) : List Char :=
  subCommaCloseFuel close l.length l

/-- Python `str.strip()` over a character list. -/
def pyStrip (l : List Char) : List Char :=
  (((l.dropWhile isPyWs).reverse.dropWhile isPyWs).reverse)

/-- The split point at the first occurrence of a non-empty `pat`:
`some (before, after)` with the occurrence removed. -/
def pyFind (pat : List Char) : List Char → Option (List Char × List Char)
  | [] => none
  | c :: cs =>
    if startsWithL pat (c :: cs) then some ([], (c :: cs).drop pat.length)
    else
      match pyFind pat cs with
      | some (b, a) => some (c :: b, a)
      | none => none

/-- The markdown code-fence stripping of `analyze_with_ai` (src/analyzer.py
lines 112-116): `t.split('```json')[1].split('```')[0]` when a json fence
marker occurs, else `t.split('```')[1].split('```')[0]` when a bare fence
occurs, else the text unchanged. -/
def fence_strip (t : List Char) : List Char :=
  let fj := ("```json").toList
  let fb := ("```").toList
  match pyFind fj t with
  | some (_, after) =>
    let seg := match pyFind fj after with
      | some (b, _) => b
      | none => after
    (match pyFind fb seg with
      | some (b, _) => b
      | none => seg)
  | none =>
    match pyFind fb t with
    | some (_, after) =>
      (match pyFind fb after with
        | some (b, _) => b
        | none => after)
    | none => t

/-- The trailing-comma repair applied to the stripped text
(src/analyzer.py lines 124-127): remove `,\s*}` then `,\s*]`. -/
def repair_text (t : List Char) : List Char :=
  subCommaClose ']' (subCommaClose '}' (pyStrip t))

/-- The parse-and-repair pipeline of `analyze_with_ai` (src/analyzer.py
lines 109-128 with the normalisation at lines 130-145): strip fences,
`json.loads` the stripped text, and on a parse error remove trailing commas
and retry.  Returns the parsed object, or `none` when the fallback analysis
is used instead — either because parsing failed twice or because the parsed
value is not an object (the field-defaulting loop at lines 143-145 then
raises `TypeError`, caught by the outer handler at line 157). -/
def parse_model_output (raw : List Char) : Option JMap :=
  let analysis_text := fence_strip raw
  let stripped := pyStrip analysis_text
  match json_loads stripped with
  | some (JVal.jobj m) => some m
  | some _ => none
  | none =>
    let fixed := subCommaClose ']' (subCommaClose '}' stripped)
    match json_loads fixed with
    | some (JVal.jobj m) => some m
    | _ => none

/-! ### Head-character lemmas for the repair proof -/

theorem parseValue_head {f : Nat} {s : List Char} {v : JVal} {r : List Char}
    (h : parseValue f s = some (v, r)) :
    ∃ c t, skipJsonWs s = c :: t ∧ ((∃ m, v = JVal.jobj m) ↔ c = '{') ∧
      c ≠ ',' := by
  cases f with
  | zero => simp [parseValue] at h
  | succ fuel =>
    unfold parseValue at h
    cases hs : skipJsonWs s with
    | nil => rw [hs] at h; cases h
    | cons c rest =>
      rw [hs] at h
      dsimp only at h
      refine ⟨c, rest, rfl, ?_⟩
      split_ifs at h with h1 h2 h3 h4 h5 h6 h7
      · subst h1
        split at h
        · cases h
          exact ⟨⟨fun _ => rfl, fun _ => ⟨_, rfl⟩⟩, by decide⟩
        · cases h
      · subst h2
        split at h
        · cases h
          refine ⟨iff_of_false ?_ (by decide), by decide⟩
          rintro ⟨m, hm⟩
          cases hm
        · cases h
      · subst h3
        split at h
        · cases h
          refine ⟨iff_of_false ?_ (by decide), by decide⟩
          rintro ⟨m, hm⟩
          cases hm
        · cases h
      · subst h4
        split at h
        · cases h
          refine ⟨iff_of_false ?_ (by decide), by decide⟩
          rintro ⟨m, hm⟩
          cases hm
        · cases h
      · subst h5
        split at h
        · cases h
          refine ⟨iff_of_false ?_ (by decide), by decide⟩
          rintro ⟨m, hm⟩
          cases hm
        · cases h
      · subst h6
        split at h
        · cases h
          refine ⟨iff_of_false ?_ (by decide), by decide⟩
          rintro ⟨m, hm⟩
          cases hm
        · cases h
      · split at h
        · cases h
          refine ⟨iff_of_false ?_ h1, ?_⟩
          · rintro ⟨m, hm⟩
            cases hm
          · intro hcomma
            rw [hcomma] at h7
            exact absurd h7 (by decide)
        · cases h

theorem subCommaCloseFuel_head (close : Char) :
    ∀ (fuel : Nat) (l : List Char) (c : Char) (t : List Char),
      l.length ≤ fuel → skipJsonWs l = c :: t → c ≠ ',' →
      ∃ t', skipJsonWs (subCommaCloseFuel close fuel l) = c :: t' := by
  intro fuel
  induction fuel with
  | zero =>
    intro l c t hlen hskip hc
    cases l with
    | nil => cases hskip
    | cons x xs => simp at hlen
  | succ fuel ih =>
    intro l c t hlen hskip hc
    cases l with
    | nil => cases hskip
    | cons x xs =>
      by_cases hx : isJsonWs x
      · have hxc : ¬ (x = ',') := by
          intro hxe
          subst hxe
          simp [isJsonWs] at hx
        have hskip' : skipJsonWs xs = c :: t := by
          rw [← hskip]
          simp [skipJsonWs, hx]
        obtain ⟨t', ht'⟩ := ih xs c t
          (by simp only [List.length_cons] at hlen; omega) hskip' hc
        refine ⟨t', ?_⟩
        rw [show subCommaCloseFuel close (fuel + 1) (x :: xs) =
            x :: subCommaCloseFuel close fuel xs from by
          simp [subCommaCloseFuel, hxc]]
        simpa [skipJsonWs, hx] using ht'
      · have hsx : skipJsonWs (x :: xs) = x :: xs := by
          simp [skipJsonWs, hx]
        rw [hsx] at hskip
        cases hskip
        refine ⟨subCommaCloseFuel close fuel t, ?_⟩
        rw [show subCommaCloseFuel close (fuel + 1) (c :: t) =
            c :: subCommaCloseFuel close fuel t from by
          simp [subCommaCloseFuel, hc]]
        simp [skipJsonWs, hx]

theorem subCommaClose_head (close : Char) {l : List Char} {c : Char}
    {t : List Char} (hskip : skipJsonWs l = c :: t) (hc : c ≠ ',') :
    ∃ t', skipJsonWs (subCommaClose close l) = c :: t' := by
  unfold subCommaClose
  exact subCommaCloseFuel_head close l.length l c t (le_refl _) hskip hc

theorem json_loads_eq_some {s : List Char} {v : JVal} (h : json_loads s = some v) :
    ∃ r, parseValue (2 * s.length + 4) s = some (v, r) := by
  unfold json_loads at h
  cases hp : parseValue (2 * s.length + 4) s with
  | none => rw [hp] at h; cases h
  | some p =>
    obtain ⟨v', r⟩ := p
    rw [hp] at h
    dsimp only at h
    split at h
    · cases h
      exact ⟨r, rfl⟩
    · cases h

/-! ### Claim theorems: JSON repair (C7) -/

/-- C7 (counterexample): `[1,2,]` is valid JSON except for a trailing comma
before a closing bracket — the repaired text parses — yet the analysis
operation returns the deterministic fallback for it: the repaired payload is
a list, not an object, so the field-defaulting step raises `TypeError` and
the outer handler falls back. -/
theorem trailing_comma_list_falls_back :
    json_loads (repair_text (("[1,2,]").toList)) =
      some (JVal.jarr [JVal.jnum ['1'], JVal.jnum ['2']]) ∧
    parse_model_output (("[1,2,]").toList) = none := by
  constructor <;> rfl

/-- C7 (amended): every secondary-model output whose fence-stripped text
parses as a JSON object after the trailing-comma repair (in particular,
every object payload that is valid JSON except for trailing commas) is
repaired and parsed by the analysis operation instead of triggering the
fallback. -/
theorem repaired_object_is_parsed (raw : List Char) (o : JMap)
    (h : json_loads (repair_text (fence_strip raw)) = some (JVal.jobj o)) :
    (parse_model_output raw).isSome = true := by
  have hrw : repair_text (fence_strip raw) =
      subCommaClose ']' (subCommaClose '}' (pyStrip (fence_strip raw))) := rfl
  rw [hrw] at h
  cases h1 : json_loads (pyStrip (fence_strip raw)) with
  | none =>
    simp only [parse_model_output, h1, h]
    rfl
  | some v =>
    by_cases hobj : ∃ m, v = JVal.jobj m
    · obtain ⟨m, rfl⟩ := hobj
      simp only [parse_model_output, h1]
      rfl
    · exfalso
      obtain ⟨r1, hp1⟩ := json_loads_eq_some h1
      obtain ⟨c, t, hskip, hiff, hcomma⟩ := parseValue_head hp1
      have hcne : c ≠ '{' := fun hceq => hobj (hiff.mpr hceq)
      obtain ⟨r2, hp2⟩ := json_loads_eq_some h
      obtain ⟨c2, t2, hskip2, hiff2, _⟩ := parseValue_head hp2
      have hc2 : c2 = '{' := hiff2.mp ⟨o, rfl⟩
      obtain ⟨t3, ht3⟩ := subCommaClose_head '}' hskip hcomma
      obtain ⟨t4, ht4⟩ := subCommaClose_head ']' ht3 hcomma
      rw [ht4] at hskip2
      cases hskip2
      exact hcne hc2

/-- A concrete object payload with a trailing comma before its closing
brace. -/
def sampleTrailingObj : List Char := ['{', '"', 'a', '"', ':', '1', ',', '}']

/-- Witness for C7 (amended): the object payload with a trailing comma is
repaired and parsed rather than falling back. -/
theorem repaired_object_is_parsed_witness :
    (parse_model_output sampleTrailingObj).isSome = true :=
  repaired_object_is_parsed sampleTrailingObj [(['a'], JVal.jnum ['1'])] (by rfl)

/-! ## Analyzer: required fields and the full record (claim C8) -/

/-- The `required_fields` defaults of `analyze_with_ai`
(src/analyzer.py lines 131-140). -/
def required_defaults : List (List Char × JVal) :=
  [(("companies_mentioned").toList, JVal.jarr []),
   (("mention_reasons").toList, JVal.jobj []),
   (("authority_signals").toList, JVal.jarr []),
   (("key_features").toList, JVal.jarr []),
   (("sources_cited").toList, JVal.jarr []),
   (("ranking_factors").toList, JVal.jstr []),
   (("sentiment").toList, JVal.jstr (("neutral").toList)),
   (("optimization_insights").toList, JVal.jstr [])]

/-- One step of the merge-with-defaults loop (src/analyzer.py lines
143-145): add the default only when the key is absent. -/
def defaultStep (acc : JMap) (fd : List Char × JVal) : JMap :=
  if dictHasKey fd.1 acc then acc else dictInsert fd.1 fd.2 acc

/-- The merge-with-defaults loop of `analyze_with_ai`
(src/analyzer.py lines 130-145). -/
def mergeDefaults (analysis : JMap) : JMap :=
  required_defaults.foldl defaultStep analysis

/-- The successful-path analysis record (src/analyzer.py lines 130-155):
defaults merged, then `sources_cited` replaced by the post-processed
extraction (`extracted` is the `_extract_additional_sources` output), then
timestamp, query and provider set. -/
def analysis_success_record (m : JMap) (extracted : List String)
    (ts q prov : String) : JMap :=
  dictInsert (("provider").toList) (JVal.jstr prov.toList)
    (dictInsert (("query").toList) (JVal.jstr q.toList)
      (dictInsert (("timestamp").toList) (JVal.jstr ts.toList)
        (dictInsert (("sources_cited").toList)
          (JVal.jarr (extracted.map (fun s => JVal.jstr s.toList)))
          (mergeDefaults m))))

/-- `_get_fallback_analysis` (src/analyzer.py lines 226-304) as the returned
dict.  The regex-match lists (`companiesRaw`, `urls`, `citeMatches`,
`platformMatches`) come from the external regex engine; authority words and
known sources are matched by substring on the actual lowercased text. -/
def fallback_record (response_text : List Char) (ts q prov : String)
    (companiesRaw urls citeMatches platformMatches : List String) : JMap :=
  let text_lower := lowerL response_text
  let authority_signals := authority_words.filter
    (fun w => containsSub w.toList text_lower)
  let sources_cited := fallback_sources response_text urls citeMatches platformMatches
  [(("timestamp").toList, JVal.jstr ts.toList),
   (("query").toList, JVal.jstr q.toList),
   (("provider").toList, JVal.jstr prov.toList),
   (("companies_mentioned").toList,
     JVal.jarr ((companiesRaw.dedup.take 10).map (fun s => JVal.jstr s.toList))),
   (("mention_reasons").toList,
     JVal.jobj [(("extracted").toList,
       JVal.jstr (("Fallback analysis - AI unavailable").toList))]),
   (("authority_signals").toList,
     JVal.jarr (authority_signals.map (fun s => JVal.jstr s.toList))),
   (("key_features").toList, JVal.jarr []),
   (("sources_cited").toList,
     JVal.jarr (sources_cited.map (fun s => JVal.jstr s.toList))),
   (("ranking_factors").toList, JVal.jstr (("Analysis unavailable").toList)),
   (("sentiment").toList, JVal.jstr (("neutral").toList)),
   (("optimization_insights").toList,
     JVal.jstr (("AI analysis unavailable - manual review recommended").toList))]

/-- `analyze_with_ai` (src/analyzer.py lines 48-159) at the level of the
returned record: `None` when analysis is disabled (line 51); otherwise the
parsed-and-normalised model output, or the fallback record when parsing
failed or produced a non-dict. -/
def analyze_with_ai_record (analyze_enabled : Bool) (raw response_text : List Char)
    (extracted : List String) (ts q prov : String)
    (companiesRaw urls citeMatches platformMatches : List String) : Option JMap :=
  if !analyze_enabled then none
  else
    match parse_model_output raw with
    | some m => some (analysis_success_record m extracted ts q prov)
    | none => some (fallback_record response_text ts q prov companiesRaw urls
        citeMatches platformMatches)

/-- The eleven keys claim C8 requires: the eight analysis fields plus the
metadata. -/
def requiredKeys : List (List Char) :=
  required_defaults.map Prod.fst ++
    [("timestamp").toList, ("query").toList, ("provider").toList]

theorem dictHasKey_dictInsert_self {κ α : Type} [DecidableEq κ] (k : κ) (v : α)
    (m : List (κ × α)) : dictHasKey k (dictInsert k v m) = true := by
  unfold dictHasKey
  rw [dictGet_dictInsert_self]
  rfl

theorem dictHasKey_dictInsert_of {κ α : Type} [DecidableEq κ] (k k' : κ) (v : α)
    (m : List (κ × α)) (h : dictHasKey k m = true) :
    dictHasKey k (dictInsert k' v m) = true := by
  by_cases hk : k' = k
  · subst hk
    exact dictHasKey_dictInsert_self k' v m
  · unfold dictHasKey at h ⊢
    rw [dictGet_dictInsert_ne k' k v hk]
    exact h

theorem foldl_defaultStep_preserves :
    ∀ (defs : List (List Char × JVal)) (m : JMap) (k : List Char),
      dictHasKey k m = true →
      dictHasKey k (defs.foldl defaultStep m) = true := by
  intro defs
  induction defs with
  | nil => intro m k h; exact h
  | cons d rest ih =>
    intro m k h
    rw [List.foldl_cons]
    apply ih
    unfold defaultStep
    by_cases hd : dictHasKey d.1 m = true
    · rw [if_pos hd]; exact h
    · rw [if_neg hd]
      exact dictHasKey_dictInsert_of k d.1 d.2 m h

theorem foldl_defaultStep_has :
    ∀ (defs : List (List Char × JVal)) (m : JMap) (k : List Char),
      k ∈ defs.map Prod.fst →
      dictHasKey k (defs.foldl defaultStep m) = true := by
  intro defs
  induction defs with
  | nil => intro m k h; simp at h
  | cons d rest ih =>
    intro m k hk
    rw [List.foldl_cons]
    rw [List.map_cons, List.mem_cons] at hk
    rcases hk with rfl | hk
    · apply foldl_defaultStep_preserves
      unfold defaultStep
      by_cases hd : dictHasKey d.1 m = true
      · rw [if_pos hd]; exact hd
      · rw [if_neg hd]
        exact dictHasKey_dictInsert_self d.1 d.2 m
    · exact ih _ k hk

theorem mergeDefaults_has (m : JMap) (k : List Char)
    (hk : k ∈ required_defaults.map Prod.fst) :
    dictHasKey k (mergeDefaults m) = true :=
  foldl_defaultStep_has required_defaults m k hk

/-- C8: every non-None record the analysis operation returns — the
normalised model output or the heuristic fallback — contains all eight
required fields plus timestamp, query and provider (defaults substituted for
anything the model omitted). -/
theorem analysis_record_has_all_fields (ae : Bool) (raw response_text : List Char)
    (extracted : List String) (ts q prov : String)
    (companiesRaw urls citeMatches platformMatches : List String) (outRec : JMap)
    (h : analyze_with_ai_record ae raw response_text extracted ts q prov
      companiesRaw urls citeMatches platformMatches = some outRec) :
    ∀ k ∈ requiredKeys, dictHasKey k outRec = true := by
  intro k hk
  unfold analyze_with_ai_record at h
  cases ae with
  | false => cases h
  | true =>
    rw [if_neg (by decide)] at h
    cases hp : parse_model_output raw with
    | some m =>
      rw [hp] at h
      cases h
      rcases List.mem_append.mp hk with hk8 | hkmeta
      · unfold analysis_success_record
        apply dictHasKey_dictInsert_of
        apply dictHasKey_dictInsert_of
        apply dictHasKey_dictInsert_of
        apply dictHasKey_dictInsert_of
        exact mergeDefaults_has m k hk8
      · simp only [List.mem_cons, List.mem_singleton, List.not_mem_nil,
          or_false] at hkmeta
        unfold analysis_success_record
        rcases hkmeta with rfl | rfl | rfl
        · apply dictHasKey_dictInsert_of
          apply dictHasKey_dictInsert_of
          exact dictHasKey_dictInsert_self _ _ _
        · apply dictHasKey_dictInsert_of
          exact dictHasKey_dictInsert_self _ _ _
        · exact dictHasKey_dictInsert_self _ _ _
    | none =>
      rw [hp] at h
      cases h
      simp only [requiredKeys, required_defaults, List.map_cons, List.map_nil,
        List.mem_append, List.mem_cons, List.mem_singleton, List.not_mem_nil,
        or_false] at hk
      rcases hk with ((rfl | rfl | rfl | rfl | rfl | rfl | rfl | rfl) |
        (rfl | rfl | rfl)) <;> rfl

/-- Witness for C8: the empty-object payload `{}` yields a record carrying
the `sentiment` key (substituted from the defaults). -/
theorem analysis_record_has_all_fields_witness :
    dictHasKey (("sentiment").toList)
      (analysis_success_record [] [] "t" "q" "OpenAI") = true :=
  analysis_record_has_all_fields true (['{', '}']) [] [] "t" "q" "OpenAI"
    [] [] [] [] (analysis_success_record [] [] "t" "q" "OpenAI") (by rfl)
    (("sentiment").toList) (by decide)

end Aiseo
